import Mathlib

/-!
# Verification of the ftp-deploy synchronized transfer engine

A shallow embedding of `src/index.js`: exclusion matching, the recursive
local-tree scanner, remote-directory cleanup, the retry/reconnect upload
transport, the bulk/entry-document upload sequencing, and the top-level
orchestrator.  External effects (filesystem reads, FTP server responses)
are supplied as explicit oracles, and every remote operation the code
performs is recorded in an `Action` trace, so temporal and error-handling
properties can be stated over the trace and the final result.
-/

namespace FtpDeploy

/-! ## Models of the JavaScript string builtins used by the source -/

/-- JS `String.prototype.startsWith`: the receiver begins with the argument. -/
def jsStartsWith (s pre : String) : Bool :=
  List.isPrefixOf pre.data s.data

/-- Does `pat` occur as a contiguous run inside the character list? -/
def listContains (pat : List Char) : List Char → Bool
  | [] => List.isPrefixOf pat []
  | c :: rest => List.isPrefixOf pat (c :: rest) || listContains pat rest

/-- JS `String.prototype.includes`: the argument occurs as a contiguous
substring of the receiver. -/
def jsIncludes (s pat : String) : Bool :=
  listContains pat.data s.data

/-! ## Exclusion matching (`parseExclusions`, `shouldExclude`) -/

/-- `parseExclusions` from `src/index.js`: split the raw comma-separated
configuration string, trim each item, drop empties. -/
def parseExclusions (exclusionsString : String) : List String :=
  if exclusionsString.trim = "" then []
  else ((exclusionsString.splitOn ",").map (fun item => item.trim)).filter
    (fun item => item ≠ "")

/-- `shouldExclude` from `src/index.js`: `itemName === exclusion ||
itemName.startsWith(exclusion + '/')` over the exclusion list. -/
def shouldExclude (itemName : String) (exclusions : List String) : Bool :=
  exclusions.any (fun exclusion =>
    itemName == exclusion || jsStartsWith itemName (exclusion ++ "/"))

/-! ## Local filesystem model and the scanner (`getAllFiles`) -/

/-- A local directory entry: a regular file or a directory with children,
as `fs.readdirSync`/`fs.statSync` would report them, in listing order. -/
inductive FSTree where
  | file (name : String)
  | dir (name : String) (children : List FSTree)

/-- `path.relative(baseDir, path.join(dirPath, name))` for a child of the
directory whose base-relative path is `rel` (POSIX separators). -/
def relJoin (rel name : String) : String :=
  if rel = "" then name else rel ++ "/" ++ name

/-- The recursion of `getAllFiles`: walk the children of a directory whose
root-relative path is `rel`, returning `(emitted files, visited paths)`.
A path is *visited* when `fs.statSync` is called on it, which the source
does only after the `shouldExclude` test on the root-relative path passed;
an excluded entry is skipped before any stat or descent. -/
def scanAux (excl : List String) (rel : String) :
    List FSTree → List String × List String
  | [] => ([], [])
  | FSTree.file n :: ts =>
    let rp := relJoin rel n
    let rest := scanAux excl rel ts
    if shouldExclude rp excl then rest
    else (rp :: rest.1, rp :: rest.2)
  | FSTree.dir n children :: ts =>
    let rp := relJoin rel n
    let rest := scanAux excl rel ts
    if shouldExclude rp excl then rest
    else
      let sub := scanAux excl rp children
      (sub.1 ++ rest.1, rp :: (sub.2 ++ rest.2))

/-- `getAllFiles(buildDir, [], buildDir, exclusions)`: the emitted
root-relative file paths. -/
def getAllFiles (excl : List String) (tree : List FSTree) : List String :=
  (scanAux excl "" tree).1

/-- The root-relative paths the scanner stats (files and directories it
actually touches), for the never-descends-into-excluded-dirs property. -/
def scanVisited (excl : List String) (tree : List FSTree) : List String :=
  (scanAux excl "" tree).2

end FtpDeploy

namespace FtpDeploy

/-! ## Path helpers (`path.posix.join`, `path.posix.dirname`, the
backslash-to-slash replace) -/

/-- `path.posix.join(a, b)` for the already-normalized paths this program
builds (no `.`/`..` segments are ever joined). -/
def posixJoin (a b : String) : String :=
  if a = "" then b
  else if b = "" then a
  else if a.data.getLast? = some '/' then a ++ b
  else a ++ "/" ++ b

/-- `path.posix.dirname` of a relative path: everything before the last
separator, `"."` when there is none. -/
def posixDirname (p : String) : String :=
  let parts := p.splitOn "/"
  if parts.length ≤ 1 then "." else String.intercalate "/" (parts.dropLast)

/-- `file.replace(/\\/g, '/')`: every backslash character becomes a slash. -/
def slashify (s : String) : String :=
  String.mk (s.data.map (fun c => if c = '\\' then '/' else c))

/-! ## The resilient transport (`uploadWithRetry`, `createFTPClient`) -/

/-- A JS error as `uploadWithRetry` inspects it: the `message` string and the
optional numeric protocol `code`. -/
structure FtpError where
  message : String
  code : Option Nat
deriving Repr, DecidableEq

/-- The connection parameters the orchestrator packs into `ftpConfig` and the
transport reuses on reconnect. -/
structure FtpConfig where
  server : String
  port : Nat
  username : String
  password : String
  secure : Bool
  remoteDir : String
deriving Repr, DecidableEq

/-- One remote operation or log line, in the order the code performs them. -/
inductive Action where
  | uploadAttempt (localPath remoteFullPath : String)
  | closeConn
  | wait (ms : Nat)
  | reconnect (server : String) (port : Nat) (username password : String)
      (secure : Bool)
  | cd (dir : String)
  | listDir (dir : String)
  | removeDirCall (name : String)
  | removeCall (name : String)
  | mkd (path : String)
  | warn (msg : String)
deriving Repr, DecidableEq

/-- Is an action an upload attempt?  (Used to bound the number of
attempts a retry sequence performs.) -/
def isUploadAction (a : Action) : Bool :=
  match a with
  | Action.uploadAttempt _ _ => true
  | _ => false

/-- The `isConnectionError` classification inside `uploadWithRetry`:
`message.includes('ECONNRESET') || message.includes('closed') ||
message.includes('Timeout') || message.includes('QUIT') || code === 421`. -/
def isConnectionError (e : FtpError) : Bool :=
  jsIncludes e.message "ECONNRESET" ||
  jsIncludes e.message "closed" ||
  jsIncludes e.message "Timeout" ||
  jsIncludes e.message "QUIT" ||
  e.code == some 421


/-- Modelled from the spec's words, for comparison with the code's
classifier: the connection-class categories the spec enumerates are
connection reset, connection closed, operation timeout, and the
protocol-level 421 "service unavailable" status. -/
def specConnectionClass (e : FtpError) : Bool :=
  jsIncludes e.message "ECONNRESET" ||
  jsIncludes e.message "closed" ||
  jsIncludes e.message "Timeout" ||
  e.code == some 421

/-- The `for (let attempt = 1; attempt <= maxRetries; attempt++)` loop of
`uploadWithRetry`, over the remaining attempt numbers.  `outcome n` is the
server's response to the n-th `client.uploadFrom` call (`none` = success).
On a connection-class failure with attempts remaining the code closes the
broken client ignoring secondary errors, sleeps 2000 ms, reconnects via
`createFTPClient` with the original parameters, and retries; otherwise the
error is thrown. -/
def retryLoop (outcome : Nat → Option FtpError) (cfg : FtpConfig)
    (localPath remoteFullPath : String) (maxRetries : Nat) :
    List Nat → List Action × Except FtpError Unit
  | [] => ([], Except.error { message := "", code := none })
  | attempt :: rest =>
    match outcome attempt with
    | none => ([Action.uploadAttempt localPath remoteFullPath], Except.ok ())
    | some e =>
      if isConnectionError e = true ∧ attempt < maxRetries then
        let next := retryLoop outcome cfg localPath remoteFullPath maxRetries rest
        (Action.uploadAttempt localPath remoteFullPath :: Action.closeConn ::
          Action.wait 2000 ::
          Action.reconnect cfg.server cfg.port cfg.username cfg.password
            cfg.secure :: next.1,
          next.2)
      else ([Action.uploadAttempt localPath remoteFullPath], Except.error e)

/-- `uploadWithRetry(client, localPath, remoteFullPath, ftpConfig, maxRetries)`
(the source's callers always use the default `maxRetries = 3`). -/
def uploadWithRetry (outcome : Nat → Option FtpError) (cfg : FtpConfig)
    (localPath remoteFullPath : String) (maxRetries : Nat) :
    List Action × Except FtpError Unit :=
  retryLoop outcome cfg localPath remoteFullPath maxRetries
    (List.range' 1 maxRetries)

/-! ## Remote cleanup (`cleanupRemoteDirectory`) -/

/-- One entry of `client.list()`: name and directory flag. -/
structure RemoteItem where
  name : String
  isDirectory : Bool
deriving Repr, DecidableEq

/-- The per-item loop of `cleanupRemoteDirectory`: excluded names are
skipped; others are deleted (`removeDir` for directories, `remove` for
files); a delete failure (`deleteOutcome name = some msg`) is logged as a
warning and the loop continues. -/
def cleanupLoop (deleteOutcome : String → Option String)
    (excl : List String) : List RemoteItem → List Action
  | [] => []
  | item :: rest =>
    (if shouldExclude item.name excl then []
     else
       let del := if item.isDirectory then Action.removeDirCall item.name
                  else Action.removeCall item.name
       match deleteOutcome item.name with
       | none => [del]
       | some msg =>
         [del, Action.warn ("Failed to delete " ++ item.name ++ ": " ++ msg)])
    ++ cleanupLoop deleteOutcome excl rest

/-- `cleanupRemoteDirectory(client, remoteDir, exclusions)`.  `listResult`
is the combined outcome of `client.cd(remoteDir)` and `client.list()`; a
failure of either is caught by the function's own try/catch and rethrown
wrapped, aborting the cleanup. -/
def cleanupRemoteDirectory (listResult : Except String (List RemoteItem))
    (deleteOutcome : String → Option String) (remoteDir : String)
    (excl : List String) : List Action × Except String Unit :=
  match listResult with
  | Except.error msg =>
    ([], Except.error ("Failed to cleanup remote directory: " ++ msg))
  | Except.ok items =>
    (Action.cd remoteDir :: Action.listDir remoteDir ::
      cleanupLoop deleteOutcome excl items, Except.ok ())

/-! ## Bulk upload (`uploadFiles`) and the entry document
(`uploadIndexFile`) -/

/-- The local-filesystem and server behavior the upload phase observes:
`existsSync` is `fs.existsSync` at upload time, and `uploadOutcome f n` the
outcome of the n-th upload attempt for the scanned file `f`. -/
structure UploadEnv where
  existsSync : String → Bool
  uploadOutcome : String → Nat → Option FtpError

/-- `files.find(f => f === 'index.html' || f === path.normalize('index.html'))`
(on POSIX `path.normalize('index.html')` is `'index.html'` itself). -/
def indexFileOf (files : List String) : Option String :=
  files.find? (fun f => f == "index.html" || f == "index.html")

/-- `files.filter(f => f !== indexFile)`; when no index file was found the
comparison against `undefined` never holds and every file is kept. -/
def otherFilesOf (files : List String) : List String :=
  files.filter (fun f => ¬ indexFileOf files = some f)

/-- The files the bulk phase uploads (`excludeIndex ? otherFiles : files`). -/
def filesToUploadOf (excludeIndex : Bool) (files : List String) :
    List String :=
  if excludeIndex then otherFilesOf files else files

/-- The insertion-ordered deduplication a JS `Set` performs. -/
def insertionDedup (l : List String) : List String :=
  l.foldl (fun acc x => if x ∈ acc then acc else acc ++ [x]) []

/-- The unique parent directories collected into `allDirs`. -/
def allDirsOf (filesToUpload : List String) : List String :=
  insertionDedup
    ((filesToUpload.map (fun f => posixDirname (slashify f))).filter
      (fun d => d ≠ "."))

/-- `createDirectoryRecursive(client, fullPath)`: one `MKD` per cumulative
path component, starting from `/`; individual errors are ignored. -/
def cumulativePaths (current : String) : List String → List String
  | [] => []
  | part :: rest =>
    let next := posixJoin current part
    next :: cumulativePaths next rest

/-- The `MKD` trace of `createDirectoryRecursive`. -/
def createDirectoryRecursive (fullPath : String) : List Action :=
  (cumulativePaths "/" ((fullPath.splitOn "/").filter (fun p => p ≠ ""))).map
    Action.mkd

/-- The per-file loop of `uploadFiles`: skip (with a warning) files missing
from the local filesystem, otherwise upload through `uploadWithRetry`; an
upload error after retries is caught and logged as a warning and the loop
continues.  (The time-based and every-10-files `NOOP` keepalives are
read-only no-ops whose failures the source swallows; they perform no remote
write and are not part of the modelled trace.) -/
def uploadLoop (env : UploadEnv) (cfg : FtpConfig)
    (buildDir remoteDir : String) : List String → List Action
  | [] => []
  | file :: rest =>
    let localPath := posixJoin buildDir file
    let fullRemotePath := posixJoin remoteDir (slashify file)
    (if env.existsSync localPath = false then
      [Action.warn ("Local file does not exist: " ++ localPath)]
     else
       let r := uploadWithRetry (env.uploadOutcome file) cfg localPath
         fullRemotePath 3
       match r.2 with
       | Except.ok _ => r.1
       | Except.error e =>
         r.1 ++ [Action.warn ("Failed to upload " ++ file ++
           " after retries: " ++ e.message)])
    ++ uploadLoop env cfg buildDir remoteDir rest

/-- `uploadFiles(client, buildDir, remoteDir, excludeIndex, exclusions,
ftpConfig)`: scan, partition off the entry document, batch-create parent
directories, upload the bulk set, and return the found index file. -/
def uploadFiles (env : UploadEnv) (cfg : FtpConfig) (tree : List FSTree)
    (buildDir remoteDir : String) (excludeIndex : Bool)
    (excl : List String) : List Action × Option String :=
  let files := getAllFiles excl tree
  let filesToUpload := filesToUploadOf excludeIndex files
  let dirActs := (allDirsOf filesToUpload).foldr
    (fun d acc => createDirectoryRecursive (posixJoin remoteDir d) ++ acc) []
  (dirActs ++ uploadLoop env cfg buildDir remoteDir filesToUpload,
    indexFileOf files)

/-- `uploadIndexFile(client, buildDir, remoteDir, indexFile, ftpConfig)`:
nothing to do when no index file was found; otherwise upload it through
`uploadWithRetry`, rethrowing a failure wrapped — fatal to the run. -/
def uploadIndexFile (env : UploadEnv) (cfg : FtpConfig)
    (buildDir remoteDir : String) :
    Option String → List Action × Except String Unit
  | none => ([], Except.ok ())
  | some indexFile =>
    let localPath := posixJoin buildDir indexFile
    let fullRemotePath := posixJoin remoteDir (slashify indexFile)
    let r := uploadWithRetry (env.uploadOutcome indexFile) cfg localPath
      fullRemotePath 3
    match r.2 with
    | Except.ok _ => (r.1, Except.ok ())
    | Except.error e =>
      (r.1, Except.error ("Failed to upload index.html: " ++ e.message))

/-! ## The orchestrator (`run`) -/

/-- Everything outside the program that one run observes: the local build
tree, and the outcomes of connecting, ensuring the remote root, listing the
remote directory, per-item deletes, local existence checks and uploads. -/
structure World where
  buildDirExists : Bool
  tree : List FSTree
  connectResult : Except String Unit
  ensureRootResult : Except String Unit
  listResult : Except String (List RemoteItem)
  deleteOutcome : String → Option String
  env : UploadEnv

/-- The run's reported outcome: `core.setFailed` on any escaped error,
success otherwise. -/
inductive RunResult where
  | success
  | failed (msg : String)
deriving Repr, DecidableEq

/-- `run()` from `src/index.js`: check the build dir, connect, ensure the
remote root, clean up, bulk-upload with `excludeIndex = true`, then upload
the entry document; any thrown error reaches the top-level catch and fails
the run. -/
def run (w : World) (cfg : FtpConfig) (buildDir : String)
    (excl : List String) : List Action × RunResult :=
  if w.buildDirExists = false then
    ([], RunResult.failed ("Deployment failed: Build directory does not exist: "
      ++ buildDir))
  else match w.connectResult with
  | Except.error msg => ([], RunResult.failed ("Deployment failed: " ++ msg))
  | Except.ok _ =>
    match w.ensureRootResult with
    | Except.error msg => ([], RunResult.failed ("Deployment failed: " ++ msg))
    | Except.ok _ =>
      let c := cleanupRemoteDirectory w.listResult w.deleteOutcome
        cfg.remoteDir excl
      match c.2 with
      | Except.error msg =>
        (c.1, RunResult.failed ("Deployment failed: " ++ msg))
      | Except.ok _ =>
        let u := uploadFiles w.env cfg w.tree buildDir cfg.remoteDir true excl
        let i := uploadIndexFile w.env cfg buildDir cfg.remoteDir u.2
        match i.2 with
        | Except.ok _ => (c.1 ++ u.1 ++ i.1, RunResult.success)
        | Except.error msg =>
          (c.1 ++ u.1 ++ i.1, RunResult.failed ("Deployment failed: " ++ msg))

/-! ## Concrete fixtures used by witnesses and counterexamples -/

/-- A sample connection configuration. -/
def sampleCfg : FtpConfig :=
  { server := "ftp.example.com", port := 21, username := "deploy",
    password := "hunter2", secure := false, remoteDir := "/public_html" }

/-- A server that resets the connection on the first attempt only. -/
def connResetOnce : Nat → Option FtpError := fun n =>
  if n = 1 then some { message := "ECONNRESET", code := none } else none

/-- A server whose first attempt fails with a bare `QUIT` message. -/
def quitErrOnce : Nat → Option FtpError := fun n =>
  if n = 1 then some { message := "QUIT", code := none } else none

/-- A permission error: not connection-class, never retried. -/
def deniedErr : FtpError :=
  { message := "550 Permission denied", code := some 550 }

/-- An environment where every local file exists and every upload works. -/
def okEnv : UploadEnv :=
  { existsSync := fun _ => true, uploadOutcome := fun _ _ => none }

/-- A small build tree with a root entry document and a nested one. -/
def sampleTree : List FSTree :=
  [FSTree.file "a.txt", FSTree.dir "sub" [FSTree.file "index.html"],
   FSTree.file "index.html"]

/-- A world in which everything succeeds. -/
def sampleWorld : World :=
  { buildDirExists := true, tree := sampleTree,
    connectResult := Except.ok (), ensureRootResult := Except.ok (),
    listResult := Except.ok [], deleteOutcome := fun _ => none,
    env := okEnv }

/-- Same world, but every upload of the entry document is denied. -/
def failIdxWorld : World :=
  { sampleWorld with env :=
    { existsSync := fun _ => true,
      uploadOutcome := fun f _ =>
        if f = "index.html" then some deniedErr else none } }

/-- Same world, but every upload of `a.txt` is denied. -/
def failATxtWorld : World :=
  { sampleWorld with env :=
    { existsSync := fun _ => true,
      uploadOutcome := fun f _ =>
        if f = "a.txt" then some deniedErr else none } }

/-- Same world, but `a.txt` has vanished from the local filesystem. -/
def missingATxtWorld : World :=
  { sampleWorld with env :=
    { existsSync := fun p => ¬ p = "dist/a.txt",
      uploadOutcome := fun _ _ => none } }

/-! ## String and prefix lemmas -/

theorem isPrefixOf_iff_exists (a : List Char) :
    ∀ s : List Char, List.isPrefixOf a s = true ↔ ∃ t, s = a ++ t := by
  induction a with
  | nil => intro s; simp [List.isPrefixOf]
  | cons c cs ih =>
    intro s
    cases s with
    | nil =>
      simp [List.isPrefixOf]
    | cons d ds =>
      simp only [List.isPrefixOf, Bool.and_eq_true, beq_iff_eq, ih,
        List.cons_append, List.cons.injEq]
      constructor
      · rintro ⟨rfl, t, rfl⟩; exact ⟨t, rfl, rfl⟩
      · rintro ⟨t, rfl, rfl⟩; exact ⟨rfl, t, rfl⟩

theorem jsStartsWith_iff (s a : String) :
    jsStartsWith s a = true ↔ ∃ t, s = a ++ t := by
  unfold jsStartsWith
  rw [isPrefixOf_iff_exists]
  constructor
  · rintro ⟨t, ht⟩
    refine ⟨String.mk t, String.ext ?_⟩
    simpa using ht
  · rintro ⟨t, rfl⟩
    exact ⟨t.data, by simp⟩

theorem string_append_cancel_left {a b c : String} (h : a ++ b = a ++ c) :
    b = c := by
  have hd := congrArg String.data h
  simp only [String.data_append] at hd
  exact String.ext (List.append_cancel_left hd)

theorem string_ne_empty_data {c : String} (hc : c ≠ "") : c.data ≠ [] :=
  fun h => hc (String.ext (h.trans rfl))

/-- For nonempty pieces, `posixJoin a b` prepends a fixed string
(depending only on `a`) to `b`. -/
theorem posixJoin_eq {a b : String} (ha : a ≠ "") (hb : b ≠ "") :
    posixJoin a b =
      (if a.data.getLast? = some '/' then a else a ++ "/") ++ b := by
  unfold posixJoin
  rw [if_neg ha, if_neg hb]
  split_ifs with h <;> simp [String.append_assoc]

theorem posixJoin_empty {a : String} (ha : a ≠ "") : posixJoin a "" = a := by
  unfold posixJoin
  rw [if_neg ha, if_pos rfl]

theorem posixJoin_ne_base {a c : String} (ha : a ≠ "") (hc : c ≠ "") :
    posixJoin a c ≠ a := by
  rw [posixJoin_eq ha hc]
  intro h
  have hd := congrArg (fun s => s.data.length) h
  simp only [String.data_append] at hd
  rw [List.length_append] at hd
  have hclen : 0 < c.data.length :=
    List.length_pos.mpr (string_ne_empty_data hc)
  have hq : a.data.length ≤
      (if a.data.getLast? = some '/' then a else a ++ "/").data.length := by
    split_ifs <;> simp
  omega

/-- Joining distinct relative paths under one base yields distinct paths. -/
theorem posixJoin_right_inj (a : String) {b c : String}
    (h : posixJoin a b = posixJoin a c) : b = c := by
  by_cases ha : a = ""
  · simpa [posixJoin, ha] using h
  · by_cases hb : b = "" <;> by_cases hc : c = ""
    · rw [hb, hc]
    · rw [hb, posixJoin_empty ha] at h
      exact absurd h.symm (posixJoin_ne_base ha hc)
    · rw [hc, posixJoin_empty ha] at h
      exact absurd h (posixJoin_ne_base ha hb)
    · rw [posixJoin_eq ha hb, posixJoin_eq ha hc] at h
      exact string_append_cancel_left h

/-- The characterization of `shouldExclude`: exact match or
directory-prefix match, nothing else. -/
theorem shouldExclude_iff (p : String) (E : List String) :
    shouldExclude p E = true ↔
      ∃ e ∈ E, p = e ∨ ∃ t, p = e ++ "/" ++ t := by
  unfold shouldExclude
  rw [List.any_eq_true]
  constructor
  · rintro ⟨e, he, hor⟩
    rcases Bool.or_eq_true _ _ |>.mp hor with h | h
    · exact ⟨e, he, Or.inl (by simpa using h)⟩
    · rcases (jsStartsWith_iff _ _).mp h with ⟨t, ht⟩
      exact ⟨e, he, Or.inr ⟨t, ht⟩⟩
  · rintro ⟨e, he, h | ⟨t, ht⟩⟩
    · exact ⟨e, he, by simp [h]⟩
    · refine ⟨e, he, Bool.or_eq_true _ _ |>.mpr (Or.inr ?_)⟩
      exact (jsStartsWith_iff _ _).mpr ⟨t, ht⟩

/-- A path beneath an excluded path is itself excluded. -/
theorem shouldExclude_under {q : String} {E : List String}
    (h : shouldExclude q E = true) (r : String) :
    shouldExclude (q ++ "/" ++ r) E = true := by
  rcases (shouldExclude_iff q E).mp h with ⟨e, he, hq | ⟨t, hq⟩⟩
  · exact (shouldExclude_iff _ E).mpr ⟨e, he, Or.inr ⟨r, by rw [hq]⟩⟩
  · refine (shouldExclude_iff _ E).mpr ⟨e, he, Or.inr ⟨t ++ "/" ++ r, ?_⟩⟩
    rw [hq]
    simp [String.append_assoc]

/-! ## Scanner invariants -/

theorem scanAux_visited_ok (excl : List String) :
    ∀ (rel : String) (ts : List FSTree),
      ∀ p ∈ (scanAux excl rel ts).2, shouldExclude p excl = false := by
  intro rel ts
  induction rel, ts using scanAux.induct excl with
  | case1 rel => simp [scanAux]
  | case2 rel n ts rp h ih =>
    intro p hp
    simp only [scanAux, h, if_true] at hp
    exact ih p hp
  | case3 rel n ts rp h ih =>
    intro p hp
    simp only [scanAux] at hp
    rw [if_neg h] at hp
    rcases List.mem_cons.mp hp with rfl | hp
    · exact Bool.not_eq_true _ |>.mp h
    · exact ih p hp
  | case4 rel n children ts rp h ih =>
    intro p hp
    simp only [scanAux, h, if_true] at hp
    exact ih p hp
  | case5 rel n children ts rp h ihr ihc =>
    intro p hp
    simp only [scanAux] at hp
    rw [if_neg h] at hp
    rcases List.mem_cons.mp hp with rfl | hp
    · exact Bool.not_eq_true _ |>.mp h
    · rcases List.mem_append.mp hp with hp | hp
      · exact ihc p hp
      · exact ihr p hp

theorem scanAux_files_sub (excl : List String) :
    ∀ (rel : String) (ts : List FSTree),
      ∀ p ∈ (scanAux excl rel ts).1, p ∈ (scanAux excl rel ts).2 := by
  intro rel ts
  induction rel, ts using scanAux.induct excl with
  | case1 rel => simp [scanAux]
  | case2 rel n ts rp h ih =>
    intro p hp
    simp only [scanAux, h, if_true] at hp ⊢
    exact ih p hp
  | case3 rel n ts rp h ih =>
    intro p hp
    simp only [scanAux] at hp ⊢
    rw [if_neg h] at hp ⊢
    rcases List.mem_cons.mp hp with rfl | hp
    · exact List.mem_cons_self _ _
    · exact List.mem_cons_of_mem _ (ih p hp)
  | case4 rel n children ts rp h ih =>
    intro p hp
    simp only [scanAux, h, if_true] at hp ⊢
    exact ih p hp
  | case5 rel n children ts rp h ihr ihc =>
    intro p hp
    simp only [scanAux] at hp ⊢
    rw [if_neg h] at hp ⊢
    rcases List.mem_append.mp hp with hp | hp
    · exact List.mem_cons_of_mem _ (List.mem_append.mpr (Or.inl (ihc p hp)))
    · exact List.mem_cons_of_mem _ (List.mem_append.mpr (Or.inr (ihr p hp)))


/-! ## Transport-trace lemmas -/

theorem retryLoop_uploads (outcome : Nat → Option FtpError) (cfg : FtpConfig)
    (lp rp : String) (m : Nat) :
    ∀ (l : List Nat) (lp' rp' : String),
      Action.uploadAttempt lp' rp' ∈ (retryLoop outcome cfg lp rp m l).1 →
      lp' = lp ∧ rp' = rp := by
  intro l
  induction l with
  | nil => intro lp' rp' h; simp [retryLoop] at h
  | cons a rest ih =>
    intro lp' rp' h
    simp only [retryLoop] at h
    split at h
    · simp only [List.mem_singleton, Action.uploadAttempt.injEq] at h
      exact ⟨h.1, h.2⟩
    · split at h
      · simp only [List.mem_cons] at h
        rcases h with h | h | h | h | h
        · simp only [Action.uploadAttempt.injEq] at h
          exact ⟨h.1, h.2⟩
        · exact absurd h (by simp)
        · exact absurd h (by simp)
        · exact absurd h (by simp)
        · exact ih lp' rp' h
      · simp only [List.mem_singleton, Action.uploadAttempt.injEq] at h
        exact ⟨h.1, h.2⟩

theorem retryLoop_head (outcome : Nat → Option FtpError) (cfg : FtpConfig)
    (lp rp : String) (m a : Nat) (l : List Nat) :
    ∃ rest, (retryLoop outcome cfg lp rp m (a :: l)).1 =
      Action.uploadAttempt lp rp :: rest := by
  simp only [retryLoop]
  split
  · exact ⟨[], rfl⟩
  · split
    · exact ⟨_, rfl⟩
    · exact ⟨[], rfl⟩

theorem retryLoop_no_other (outcome : Nat → Option FtpError) (cfg : FtpConfig)
    (lp rp : String) (m : Nat) :
    ∀ (l : List Nat) (a : Action), a ∈ (retryLoop outcome cfg lp rp m l).1 →
      a = Action.uploadAttempt lp rp ∨ a = Action.closeConn ∨
      a = Action.wait 2000 ∨
      a = Action.reconnect cfg.server cfg.port cfg.username cfg.password
        cfg.secure := by
  intro l
  induction l with
  | nil => intro a h; simp [retryLoop] at h
  | cons n rest ih =>
    intro a h
    simp only [retryLoop] at h
    split at h
    · simp only [List.mem_singleton] at h
      exact Or.inl h
    · split at h
      · simp only [List.mem_cons] at h
        rcases h with rfl | rfl | rfl | rfl | h
        · exact Or.inl rfl
        · exact Or.inr (Or.inl rfl)
        · exact Or.inr (Or.inr (Or.inl rfl))
        · exact Or.inr (Or.inr (Or.inr rfl))
        · exact ih a h
      · simp only [List.mem_singleton] at h
        exact Or.inl h

theorem retryLoop_attempt_count (outcome : Nat → Option FtpError)
    (cfg : FtpConfig) (lp rp : String) (m : Nat) :
    ∀ l : List Nat,
      ((retryLoop outcome cfg lp rp m l).1.countP isUploadAction) ≤
        l.length := by
  intro l
  induction l with
  | nil => simp [retryLoop]
  | cons n rest ih =>
    simp only [retryLoop]
    split
    · simp [List.countP_cons, isUploadAction]
    · split
      · simp only [List.countP_cons, List.length_cons, isUploadAction]
        simp only [List.countP_cons] at ih ⊢
        simp [isUploadAction]
        omega
      · simp [List.countP_cons, isUploadAction]

theorem uploadWithRetry_head (outcome : Nat → Option FtpError)
    (cfg : FtpConfig) (lp rp : String) :
    ∃ rest, (uploadWithRetry outcome cfg lp rp 3).1 =
      Action.uploadAttempt lp rp :: rest := by
  unfold uploadWithRetry
  exact retryLoop_head outcome cfg lp rp 3 1 [2, 3]

/-! ## Index-file and bulk-set lemmas -/

theorem indexFileOf_eq_index {files : List String} {i : String}
    (h : indexFileOf files = some i) : i = "index.html" := by
  have := List.find?_some h
  simpa using this

theorem indexFileOf_of_mem {files : List String}
    (h : "index.html" ∈ files) :
    indexFileOf files = some "index.html" := by
  cases hf : indexFileOf files with
  | none =>
    exfalso
    have := List.find?_eq_none.mp hf "index.html" h
    simp at this
  | some i =>
    rw [indexFileOf_eq_index hf]

theorem mem_filesToUpload_of {files : List String} {f : String}
    (h : f ∈ files) (hne : f ≠ "index.html") :
    f ∈ filesToUploadOf true files := by
  simp only [filesToUploadOf, if_true, otherFilesOf]
  rw [List.mem_filter]
  refine ⟨h, ?_⟩
  simp only [decide_eq_true_eq]
  intro hc
  exact hne (indexFileOf_eq_index hc)

theorem filesToUpload_sub {files : List String} {f : String}
    (h : f ∈ filesToUploadOf true files) : f ∈ files := by
  simp only [filesToUploadOf, if_true, otherFilesOf] at h
  exact (List.mem_filter.mp h).1

theorem mem_filesToUpload_ne_index {files : List String} {f : String}
    (hidx : "index.html" ∈ files) (h : f ∈ filesToUploadOf true files) :
    f ≠ "index.html" := by
  simp only [filesToUploadOf, if_true, otherFilesOf] at h
  have hp := (List.mem_filter.mp h).2
  simp only [decide_eq_true_eq] at hp
  intro hf
  rw [indexFileOf_of_mem hidx] at hp
  exact hp (by rw [hf])

/-! ## Bulk-upload loop lemmas -/

theorem uploadLoop_uploads (env : UploadEnv) (cfg : FtpConfig)
    (bd rd : String) :
    ∀ (files : List String) (lp' rp' : String),
      Action.uploadAttempt lp' rp' ∈ uploadLoop env cfg bd rd files →
      ∃ f ∈ files, lp' = posixJoin bd f ∧ rp' = posixJoin rd (slashify f) ∧
        env.existsSync (posixJoin bd f) = true := by
  intro files
  induction files with
  | nil => intro lp' rp' h; simp [uploadLoop] at h
  | cons f rest ih =>
    intro lp' rp' h
    simp only [uploadLoop, List.mem_append] at h
    rcases h with h | h
    · split at h
      · simp at h
      · rename_i hex
        simp only [Bool.not_eq_false] at hex
        split at h
        · have := retryLoop_uploads _ cfg _ _ 3 _ _ _ h
          exact ⟨f, List.mem_cons_self _ _, this.1, this.2, hex⟩
        · rcases List.mem_append.mp h with h | h
          · have := retryLoop_uploads _ cfg _ _ 3 _ _ _ h
            exact ⟨f, List.mem_cons_self _ _, this.1, this.2, hex⟩
          · simp at h
    · rcases ih lp' rp' h with ⟨g, hg, h1, h2, h3⟩
      exact ⟨g, List.mem_cons_of_mem _ hg, h1, h2, h3⟩

theorem uploadLoop_attempt_mem (env : UploadEnv) (cfg : FtpConfig)
    (bd rd : String) :
    ∀ (files : List String) (f : String), f ∈ files →
      env.existsSync (posixJoin bd f) = true →
      Action.uploadAttempt (posixJoin bd f) (posixJoin rd (slashify f)) ∈
        uploadLoop env cfg bd rd files := by
  intro files
  induction files with
  | nil => intro f h; simp at h
  | cons g rest ih =>
    intro f hmem hex
    simp only [uploadLoop, List.mem_append]
    rcases List.mem_cons.mp hmem with rfl | hmem
    · refine Or.inl ?_
      rw [if_neg (by simp [hex])]
      obtain ⟨tl, htl⟩ := uploadWithRetry_head (env.uploadOutcome f) cfg
        (posixJoin bd f) (posixJoin rd (slashify f))
      split
      · rw [htl]; exact List.mem_cons_self _ _
      · exact List.mem_append.mpr (Or.inl (by rw [htl]; exact List.mem_cons_self _ _))
    · exact Or.inr (ih f hmem hex)

theorem uploadLoop_warn_fail (env : UploadEnv) (cfg : FtpConfig)
    (bd rd : String) :
    ∀ (files : List String) (f : String) (e : FtpError), f ∈ files →
      env.existsSync (posixJoin bd f) = true →
      (uploadWithRetry (env.uploadOutcome f) cfg (posixJoin bd f)
        (posixJoin rd (slashify f)) 3).2 = Except.error e →
      Action.warn ("Failed to upload " ++ f ++ " after retries: " ++ e.message)
        ∈ uploadLoop env cfg bd rd files := by
  intro files
  induction files with
  | nil => intro f e h; simp at h
  | cons g rest ih =>
    intro f e hmem hex herr
    simp only [uploadLoop, List.mem_append]
    rcases List.mem_cons.mp hmem with rfl | hmem
    · refine Or.inl ?_
      rw [if_neg (by simp [hex])]
      split
      · rename_i heq
        rw [herr] at heq
        exact absurd heq (by simp)
      · rename_i e' heq
        rw [herr] at heq
        have : e' = e := by
          have := heq
          simp only [Except.error.injEq] at this
          exact this.symm
        rw [this]
        exact List.mem_append.mpr (Or.inr (List.mem_singleton.mpr rfl))
    · exact Or.inr (ih f e hmem hex herr)

theorem uploadLoop_warn_skip (env : UploadEnv) (cfg : FtpConfig)
    (bd rd : String) :
    ∀ (files : List String) (f : String), f ∈ files →
      env.existsSync (posixJoin bd f) = false →
      Action.warn ("Local file does not exist: " ++ posixJoin bd f) ∈
        uploadLoop env cfg bd rd files := by
  intro files
  induction files with
  | nil => intro f h; simp at h
  | cons g rest ih =>
    intro f hmem hex
    simp only [uploadLoop, List.mem_append]
    rcases List.mem_cons.mp hmem with rfl | hmem
    · refine Or.inl ?_
      rw [if_pos (by simp [hex])]
      exact List.mem_singleton.mpr rfl
    · exact Or.inr (ih f hmem hex)

/-! ## Cleanup and directory-creation trace lemmas -/

theorem cleanupLoop_no_upload (del : String → Option String)
    (excl : List String) :
    ∀ (items : List RemoteItem) (lp rp : String),
      Action.uploadAttempt lp rp ∉ cleanupLoop del excl items := by
  intro items
  induction items with
  | nil => intro lp rp h; simp [cleanupLoop] at h
  | cons item rest ih =>
    intro lp rp h
    simp only [cleanupLoop, List.mem_append] at h
    rcases h with h | h
    · split at h
      · simp at h
      · split at h <;> simp_all <;> split at h <;> simp_all
    · exact ih lp rp h

theorem createDirectoryRecursive_mkd (p : String) :
    ∀ a ∈ createDirectoryRecursive p, ∃ q, a = Action.mkd q := by
  unfold createDirectoryRecursive
  intro a ha
  rcases List.mem_map.mp ha with ⟨q, _, rfl⟩
  exact ⟨q, rfl⟩

theorem dirActs_no_upload (rd : String) (dirs : List String)
    (lp rp : String) :
    Action.uploadAttempt lp rp ∉
      dirs.foldr (fun d acc => createDirectoryRecursive (posixJoin rd d) ++ acc)
        [] := by
  induction dirs with
  | nil => simp
  | cons d rest ih =>
    simp only [List.foldr_cons, List.mem_append]
    intro h
    rcases h with h | h
    · rcases createDirectoryRecursive_mkd _ _ h with ⟨q, hq⟩
      simp at hq
    · exact ih h


/-! ## Cleanup presence lemmas -/

theorem cleanupLoop_excluded_untouched (del : String → Option String)
    (excl : List String) :
    ∀ (items : List RemoteItem) (name : String),
      shouldExclude name excl = true →
      Action.removeDirCall name ∉ cleanupLoop del excl items ∧
      Action.removeCall name ∉ cleanupLoop del excl items := by
  intro items
  induction items with
  | nil => intro name h; simp [cleanupLoop]
  | cons item rest ih =>
    intro name hname
    have ihn := ih name hname
    simp only [cleanupLoop, List.mem_append]
    constructor
    · intro h
      rcases h with h | h
      · split at h
        · simp at h
        · rename_i hexcl
          have hne : item.name ≠ name := by
            intro he
            rw [he, hname] at hexcl
            exact hexcl rfl
          split at h <;> simp_all <;> split at h <;> simp_all
      · exact ihn.1 h
    · intro h
      rcases h with h | h
      · split at h
        · simp at h
        · rename_i hexcl
          have hne : item.name ≠ name := by
            intro he
            rw [he, hname] at hexcl
            exact hexcl rfl
          split at h <;> simp_all <;> split at h <;> simp_all
      · exact ihn.2 h

theorem cleanupLoop_delete_mem (del : String → Option String)
    (excl : List String) :
    ∀ (items : List RemoteItem) (item : RemoteItem), item ∈ items →
      shouldExclude item.name excl = false →
      (if item.isDirectory then Action.removeDirCall item.name
       else Action.removeCall item.name) ∈ cleanupLoop del excl items := by
  intro items
  induction items with
  | nil => intro item h; simp at h
  | cons it rest ih =>
    intro item hmem hexcl
    simp only [cleanupLoop, List.mem_append]
    rcases List.mem_cons.mp hmem with rfl | hmem
    · refine Or.inl ?_
      rw [if_neg (by simp [hexcl])]
      split
      · exact List.mem_singleton.mpr rfl
      · exact List.mem_cons_self _ _
    · exact Or.inr (ih item hmem hexcl)

theorem cleanupLoop_warn_mem (del : String → Option String)
    (excl : List String) :
    ∀ (items : List RemoteItem) (item : RemoteItem) (msg : String),
      item ∈ items → shouldExclude item.name excl = false →
      del item.name = some msg →
      Action.warn ("Failed to delete " ++ item.name ++ ": " ++ msg) ∈
        cleanupLoop del excl items := by
  intro items
  induction items with
  | nil => intro item msg h; simp at h
  | cons it rest ih =>
    intro item msg hmem hexcl hdel
    simp only [cleanupLoop, List.mem_append]
    rcases List.mem_cons.mp hmem with rfl | hmem
    · refine Or.inl ?_
      rw [if_neg (by simp [hexcl]), hdel]
      exact List.mem_cons_of_mem _ (List.mem_singleton.mpr rfl)
    · exact Or.inr (ih item msg hmem hexcl hdel)

/-! ## Retry helpers shared by several claim statements -/

theorem retry_first_attempt (outcome : Nat → Option FtpError)
    (cfg : FtpConfig) (lp rp : String) (e : FtpError)
    (h1 : outcome 1 = some e) (hconn : isConnectionError e = true) :
    ∃ rest, (uploadWithRetry outcome cfg lp rp 3).1 =
      Action.uploadAttempt lp rp :: Action.closeConn :: Action.wait 2000 ::
      Action.reconnect cfg.server cfg.port cfg.username cfg.password
        cfg.secure :: Action.uploadAttempt lp rp :: rest := by
  have hr : List.range' 1 3 = [1, 2, 3] := rfl
  obtain ⟨tl, htl⟩ := retryLoop_head outcome cfg lp rp 3 2 [3]
  refine ⟨tl, ?_⟩
  unfold uploadWithRetry
  rw [hr, retryLoop, h1]
  dsimp only
  rw [if_pos ⟨hconn, by omega⟩]
  rw [htl]

theorem no_retry_first (outcome : Nat → Option FtpError) (cfg : FtpConfig)
    (lp rp : String) (e : FtpError) (h1 : outcome 1 = some e)
    (hconn : isConnectionError e = false) :
    uploadWithRetry outcome cfg lp rp 3 =
      ([Action.uploadAttempt lp rp], Except.error e) := by
  have hr : List.range' 1 3 = [1, 2, 3] := rfl
  unfold uploadWithRetry
  rw [hr, retryLoop, h1]
  dsimp only
  rw [if_neg (by simp [hconn])]

theorem uploadWithRetry_no_cd (outcome : Nat → Option FtpError)
    (cfg : FtpConfig) (lp rp : String) (d : String) :
    Action.cd d ∉ (uploadWithRetry outcome cfg lp rp 3).1 := by
  intro h
  rcases retryLoop_no_other outcome cfg lp rp 3 _ _ h with
    h' | h' | h' | h' <;> simp at h'

theorem uploadWithRetry_count (outcome : Nat → Option FtpError)
    (cfg : FtpConfig) (lp rp : String) :
    (uploadWithRetry outcome cfg lp rp 3).1.countP isUploadAction ≤ 3 := by
  have := retryLoop_attempt_count outcome cfg lp rp 3 (List.range' 1 3)
  simpa using this

/-! ## Orchestrator unfolding -/

theorem run_phases_ok (w : World) (cfg : FtpConfig) (buildDir : String)
    (excl : List String) (items : List RemoteItem)
    (hb : w.buildDirExists = true) (hc : w.connectResult = Except.ok ())
    (he : w.ensureRootResult = Except.ok ())
    (hl : w.listResult = Except.ok items) :
    run w cfg buildDir excl =
      ((Action.cd cfg.remoteDir :: Action.listDir cfg.remoteDir ::
        cleanupLoop w.deleteOutcome excl items) ++
        (uploadFiles w.env cfg w.tree buildDir cfg.remoteDir true excl).1 ++
        (uploadIndexFile w.env cfg buildDir cfg.remoteDir
          (uploadFiles w.env cfg w.tree buildDir cfg.remoteDir true excl).2).1,
       match (uploadIndexFile w.env cfg buildDir cfg.remoteDir
          (uploadFiles w.env cfg w.tree buildDir cfg.remoteDir true excl).2).2
       with
       | Except.ok _ => RunResult.success
       | Except.error msg =>
         RunResult.failed ("Deployment failed: " ++ msg)) := by
  unfold run
  rw [hb, hc, he]
  simp only [cleanupRemoteDirectory, hl, Bool.true_eq_false, if_false]
  split <;> rfl

theorem run_cleanup_error (w : World) (cfg : FtpConfig) (buildDir : String)
    (excl : List String) (msg : String)
    (hb : w.buildDirExists = true) (hc : w.connectResult = Except.ok ())
    (he : w.ensureRootResult = Except.ok ())
    (hl : w.listResult = Except.error msg) :
    run w cfg buildDir excl =
      ([], RunResult.failed
        ("Deployment failed: Failed to cleanup remote directory: " ++ msg)) := by
  unfold run
  rw [hb, hc, he]
  simp only [cleanupRemoteDirectory, hl, Bool.true_eq_false, if_false]
  rw [← String.append_assoc]
  rfl


/-! ## Unfolding helpers for the claim statements -/

theorem uploadFiles_eq (env : UploadEnv) (cfg : FtpConfig)
    (tree : List FSTree) (bd rd : String) (b : Bool) (excl : List String) :
    uploadFiles env cfg tree bd rd b excl =
      ((allDirsOf (filesToUploadOf b (getAllFiles excl tree))).foldr
        (fun d acc => createDirectoryRecursive (posixJoin rd d) ++ acc) [] ++
        uploadLoop env cfg bd rd (filesToUploadOf b (getAllFiles excl tree)),
       indexFileOf (getAllFiles excl tree)) := rfl

theorem uploadIndexFile_some_trace (env : UploadEnv) (cfg : FtpConfig)
    (bd rd i : String) :
    (uploadIndexFile env cfg bd rd (some i)).1 =
      (uploadWithRetry (env.uploadOutcome i) cfg (posixJoin bd i)
        (posixJoin rd (slashify i)) 3).1 := by
  simp only [uploadIndexFile]
  split <;> rfl

theorem indexFileOf_eq_none {files : List String}
    (h : "index.html" ∉ files) : indexFileOf files = none := by
  refine List.find?_eq_none.mpr ?_
  intro x hx
  simp only [Bool.or_self, beq_iff_eq]
  intro he
  exact h (he ▸ hx)

/-! ## Claims -/

/-- C3: `shouldExclude(path, exclusions)` returns true iff `path` equals a
member of the list exactly or starts with that member followed by `/`;
no other (wildcard/glob) form of matching occurs. -/
theorem claim_C3 (p : String) (E : List String) :
    shouldExclude p E = true ↔ ∃ e ∈ E, p = e ∨ ∃ t, p = e ++ "/" ++ t :=
  shouldExclude_iff p E

/-- C4: every emitted file was visited, no visited path is excluded, and no
visited path equals or lies beneath any excluded path — the scanner tests
the root-relative path before descending, so excluded directories are never
entered. -/
theorem claim_C4 :
    (∀ (excl : List String) (tree : List FSTree) (p : String),
       p ∈ getAllFiles excl tree → p ∈ scanVisited excl tree) ∧
    (∀ (excl : List String) (tree : List FSTree) (p : String),
       p ∈ scanVisited excl tree → shouldExclude p excl = false) ∧
    (∀ (excl : List String) (tree : List FSTree) (p q r : String),
       p ∈ scanVisited excl tree → shouldExclude q excl = true →
       p ≠ q ∧ p ≠ q ++ "/" ++ r) := by
  refine ⟨?_, ?_, ?_⟩
  · intro excl tree p hp
    exact scanAux_files_sub excl "" tree p hp
  · intro excl tree p hp
    exact scanAux_visited_ok excl "" tree p hp
  · intro excl tree p q r hp hq
    have hfalse := scanAux_visited_ok excl "" tree p hp
    constructor
    · rintro rfl
      rw [hq] at hfalse
      cases hfalse
    · rintro rfl
      rw [shouldExclude_under hq r] at hfalse
      cases hfalse

/-- C5 (counterexample): on a connection-reset first attempt the retry
sequence is close, wait 2000 ms, reconnect, re-upload — it contains no
change-directory operation, so the working directory is never restored to
the configured remote root, contrary to the claim. -/
theorem counterexample_C5 :
    (uploadWithRetry connResetOnce sampleCfg "/dist/a.txt"
      "/public_html/a.txt" 3).1 =
      [Action.uploadAttempt "/dist/a.txt" "/public_html/a.txt",
       Action.closeConn, Action.wait 2000,
       Action.reconnect "ftp.example.com" 21 "deploy" "hunter2" false,
       Action.uploadAttempt "/dist/a.txt" "/public_html/a.txt"] ∧
    (∀ d, Action.cd d ∉ (uploadWithRetry connResetOnce sampleCfg
      "/dist/a.txt" "/public_html/a.txt" 3).1) := by
  constructor
  · rfl
  · intro d
    exact uploadWithRetry_no_cd connResetOnce sampleCfg _ _ d

/-- C5 (amended): on a connection-class first-attempt failure with retries
remaining the transport closes the broken connection, waits the fixed
2000 ms backoff, reconnects with the original connection parameters and
retries the same upload; no working-directory restoration occurs (uploads
address the remote root by absolute path), and at most 3 attempts are made
in total. -/
theorem claim_C5 (outcome : Nat → Option FtpError) (cfg : FtpConfig)
    (lp rp : String) (e : FtpError) (h1 : outcome 1 = some e)
    (hconn : isConnectionError e = true) :
    (∃ rest, (uploadWithRetry outcome cfg lp rp 3).1 =
      Action.uploadAttempt lp rp :: Action.closeConn :: Action.wait 2000 ::
      Action.reconnect cfg.server cfg.port cfg.username cfg.password
        cfg.secure :: Action.uploadAttempt lp rp :: rest) ∧
    (∀ d, Action.cd d ∉ (uploadWithRetry outcome cfg lp rp 3).1) ∧
    (uploadWithRetry outcome cfg lp rp 3).1.countP isUploadAction ≤ 3 :=
  ⟨retry_first_attempt outcome cfg lp rp e h1 hconn,
   fun d => uploadWithRetry_no_cd outcome cfg lp rp d,
   uploadWithRetry_count outcome cfg lp rp⟩

/-- C5 (witness): the amended behavior at a concrete reset-then-succeed
server. -/
theorem claim_C5_witness :
    (∃ rest, (uploadWithRetry connResetOnce sampleCfg "/dist/a.txt"
        "/public_html/a.txt" 3).1 =
      Action.uploadAttempt "/dist/a.txt" "/public_html/a.txt" ::
      Action.closeConn :: Action.wait 2000 ::
      Action.reconnect sampleCfg.server sampleCfg.port sampleCfg.username
        sampleCfg.password sampleCfg.secure ::
      Action.uploadAttempt "/dist/a.txt" "/public_html/a.txt" :: rest) ∧
    (∀ d, Action.cd d ∉ (uploadWithRetry connResetOnce sampleCfg
      "/dist/a.txt" "/public_html/a.txt" 3).1) ∧
    (uploadWithRetry connResetOnce sampleCfg "/dist/a.txt"
      "/public_html/a.txt" 3).1.countP isUploadAction ≤ 3 :=
  claim_C5 connResetOnce sampleCfg "/dist/a.txt" "/public_html/a.txt"
    { message := "ECONNRESET", code := none } rfl (by decide)

/-- C6 (counterexample): an error whose message is exactly `QUIT` falls in
none of the four connection-class categories the claim lists, yet the code
retries it (the trace shows a close/wait/reconnect followed by a second
attempt). -/
theorem counterexample_C6 :
    specConnectionClass { message := "QUIT", code := none } = false ∧
    (uploadWithRetry quitErrOnce sampleCfg "/dist/a.txt"
      "/public_html/a.txt" 3).1 =
      [Action.uploadAttempt "/dist/a.txt" "/public_html/a.txt",
       Action.closeConn, Action.wait 2000,
       Action.reconnect "ftp.example.com" 21 "deploy" "hunter2" false,
       Action.uploadAttempt "/dist/a.txt" "/public_html/a.txt"] := by
  constructor
  · rfl
  · rfl

/-- C6 (amended): the code's classifier equals the spec's four categories
*plus* any message containing `QUIT`; a first-attempt failure is retried
precisely when that classifier accepts it, and otherwise the error
propagates immediately with no retry. -/
theorem claim_C6 :
    (∀ e : FtpError, isConnectionError e =
      (specConnectionClass e || jsIncludes e.message "QUIT")) ∧
    (∀ (outcome : Nat → Option FtpError) (cfg : FtpConfig) (lp rp : String)
       (e : FtpError), outcome 1 = some e → isConnectionError e = false →
       uploadWithRetry outcome cfg lp rp 3 =
         ([Action.uploadAttempt lp rp], Except.error e)) ∧
    (∀ (outcome : Nat → Option FtpError) (cfg : FtpConfig) (lp rp : String)
       (e : FtpError), outcome 1 = some e → isConnectionError e = true →
       ∃ rest, (uploadWithRetry outcome cfg lp rp 3).1 =
         Action.uploadAttempt lp rp :: Action.closeConn :: Action.wait 2000 ::
         Action.reconnect cfg.server cfg.port cfg.username cfg.password
           cfg.secure :: Action.uploadAttempt lp rp :: rest) := by
  refine ⟨?_, ?_, ?_⟩
  · intro e
    unfold isConnectionError specConnectionClass
    cases jsIncludes e.message "QUIT" <;> cases e.code == some 421 <;> simp
  · intro outcome cfg lp rp e h1 hconn
    exact no_retry_first outcome cfg lp rp e h1 hconn
  · intro outcome cfg lp rp e h1 hconn
    exact retry_first_attempt outcome cfg lp rp e h1 hconn

/-- C7: remote cleanup preserves exactly the excluded names, deletes every
other child with the kind-appropriate primitive, absorbs per-item delete
failures as warnings without aborting, and a cd/list failure aborts the
whole run fatally. -/
theorem claim_C7 :
    (∀ (del : String → Option String) (excl : List String)
       (items : List RemoteItem) (name : String),
       shouldExclude name excl = true →
       Action.removeDirCall name ∉ cleanupLoop del excl items ∧
       Action.removeCall name ∉ cleanupLoop del excl items) ∧
    (∀ (del : String → Option String) (excl : List String)
       (items : List RemoteItem) (item : RemoteItem), item ∈ items →
       shouldExclude item.name excl = false →
       (if item.isDirectory then Action.removeDirCall item.name
        else Action.removeCall item.name) ∈ cleanupLoop del excl items) ∧
    (∀ (del : String → Option String) (excl : List String)
       (items : List RemoteItem) (item : RemoteItem) (msg : String),
       item ∈ items → shouldExclude item.name excl = false →
       del item.name = some msg →
       Action.warn ("Failed to delete " ++ item.name ++ ": " ++ msg) ∈
         cleanupLoop del excl items) ∧
    (∀ (del : String → Option String) (excl : List String)
       (remoteDir : String) (items : List RemoteItem),
       (cleanupRemoteDirectory (Except.ok items) del remoteDir excl).2 =
         Except.ok ()) ∧
    (∀ (del : String → Option String) (excl : List String)
       (remoteDir msg : String),
       cleanupRemoteDirectory (Except.error msg) del remoteDir excl =
         ([], Except.error
           ("Failed to cleanup remote directory: " ++ msg))) ∧
    (∀ (w : World) (cfg : FtpConfig) (buildDir : String)
       (excl : List String) (msg : String), w.buildDirExists = true →
       w.connectResult = Except.ok () → w.ensureRootResult = Except.ok () →
       w.listResult = Except.error msg →
       (run w cfg buildDir excl).2 = RunResult.failed
         ("Deployment failed: Failed to cleanup remote directory: " ++
           msg)) := by
  refine ⟨?_, ?_, ?_, ?_, ?_, ?_⟩
  · intro del excl items name h
    exact cleanupLoop_excluded_untouched del excl items name h
  · intro del excl items item hmem h
    exact cleanupLoop_delete_mem del excl items item hmem h
  · intro del excl items item msg hmem h hdel
    exact cleanupLoop_warn_mem del excl items item msg hmem h hdel
  · intro del excl remoteDir items
    rfl
  · intro del excl remoteDir msg
    rfl
  · intro w cfg buildDir excl msg hb hc he hl
    rw [run_cleanup_error w cfg buildDir excl msg hb hc he hl]

/-! ## Run-level helpers -/

theorem run_success_phases (w : World) (cfg : FtpConfig) (buildDir : String)
    (excl : List String)
    (hsucc : (run w cfg buildDir excl).2 = RunResult.success) :
    w.buildDirExists = true ∧ w.connectResult = Except.ok () ∧
    w.ensureRootResult = Except.ok () ∧
    ∃ items, w.listResult = Except.ok items := by
  cases hb : w.buildDirExists with
  | false =>
    exfalso
    unfold run at hsucc
    rw [hb] at hsucc
    simp at hsucc
  | true =>
    cases hc : w.connectResult with
    | error m =>
      exfalso
      unfold run at hsucc
      rw [hb, hc] at hsucc
      simp at hsucc
    | ok u =>
      cases u
      cases he : w.ensureRootResult with
      | error m =>
        exfalso
        unfold run at hsucc
        rw [hb, hc, he] at hsucc
        simp at hsucc
      | ok v =>
        cases v
        cases hl : w.listResult with
        | error m =>
          exfalso
          unfold run at hsucc
          rw [hb, hc, he, hl] at hsucc
          simp [cleanupRemoteDirectory] at hsucc
        | ok items => exact ⟨rfl, rfl, rfl, items, rfl⟩

theorem uploadIndexFile_some_err (env : UploadEnv) (cfg : FtpConfig)
    (bd rd i : String) (e : FtpError)
    (h : (uploadWithRetry (env.uploadOutcome i) cfg (posixJoin bd i)
      (posixJoin rd (slashify i)) 3).2 = Except.error e) :
    (uploadIndexFile env cfg bd rd (some i)).2 =
      Except.error ("Failed to upload index.html: " ++ e.message) := by
  simp only [uploadIndexFile]
  split
  · rename_i heq
    rw [h] at heq
    cases heq
  · rename_i e' heq
    rw [h] at heq
    cases heq
    rfl

/-- C1: in every successful run whose scan found the root-level entry
document, the trace splits into a prefix containing only non-entry uploads
and a suffix containing only entry-document uploads (at least one) — the
entry document's write is strictly after every other upload. -/
theorem claim_C1 (w : World) (cfg : FtpConfig) (buildDir : String)
    (excl : List String)
    (hsucc : (run w cfg buildDir excl).2 = RunResult.success)
    (hidx : "index.html" ∈ getAllFiles excl w.tree) :
    ∃ pre post, (run w cfg buildDir excl).1 = pre ++ post ∧
      (∀ lp rp, Action.uploadAttempt lp rp ∈ pre →
        lp ≠ posixJoin buildDir "index.html") ∧
      (∀ lp rp, Action.uploadAttempt lp rp ∈ post →
        lp = posixJoin buildDir "index.html") ∧
      (∃ rp, Action.uploadAttempt (posixJoin buildDir "index.html") rp
        ∈ post) := by
  obtain ⟨hb, hc, he, items, hl⟩ :=
    run_success_phases w cfg buildDir excl hsucc
  have hrun := run_phases_ok w cfg buildDir excl items hb hc he hl
  have hif : indexFileOf (getAllFiles excl w.tree) = some "index.html" :=
    indexFileOf_of_mem hidx
  have hu2 : (uploadFiles w.env cfg w.tree buildDir cfg.remoteDir true
      excl).2 = some "index.html" := by
    rw [uploadFiles_eq]
    exact hif
  refine ⟨(Action.cd cfg.remoteDir :: Action.listDir cfg.remoteDir ::
      cleanupLoop w.deleteOutcome excl items) ++
      (uploadFiles w.env cfg w.tree buildDir cfg.remoteDir true excl).1,
    (uploadIndexFile w.env cfg buildDir cfg.remoteDir
      (uploadFiles w.env cfg w.tree buildDir cfg.remoteDir true excl).2).1,
    ?_, ?_, ?_, ?_⟩
  · rw [hrun]
  · intro lp rp hmem
    rcases List.mem_append.mp hmem with hmem | hmem
    · rcases List.mem_cons.mp hmem with h | hmem
      · cases h
      · rcases List.mem_cons.mp hmem with h | hmem
        · cases h
        · exact absurd hmem (cleanupLoop_no_upload w.deleteOutcome excl
            items lp rp)
    · rw [uploadFiles_eq] at hmem
      rcases List.mem_append.mp hmem with hmem | hmem
      · exact absurd hmem (dirActs_no_upload cfg.remoteDir _ lp rp)
      · rcases uploadLoop_uploads w.env cfg buildDir cfg.remoteDir _ lp rp
          hmem with ⟨f, hf, hlp, _, _⟩
        have hne := mem_filesToUpload_ne_index hidx hf
        intro heq
        rw [hlp] at heq
        exact hne (posixJoin_right_inj buildDir heq)
  · intro lp rp hmem
    rw [hu2, uploadIndexFile_some_trace] at hmem
    exact (retryLoop_uploads (w.env.uploadOutcome "index.html") cfg
      (posixJoin buildDir "index.html")
      (posixJoin cfg.remoteDir (slashify "index.html")) 3 _ lp rp hmem).1
  · refine ⟨posixJoin cfg.remoteDir (slashify "index.html"), ?_⟩
    rw [hu2, uploadIndexFile_some_trace]
    obtain ⟨tl, htl⟩ := uploadWithRetry_head
      (w.env.uploadOutcome "index.html") cfg
      (posixJoin buildDir "index.html")
      (posixJoin cfg.remoteDir (slashify "index.html"))
    rw [htl]
    exact List.mem_cons_self _ _

/-- C2: when the scan found the entry document and its upload fails after
retries are exhausted, the whole run reports failure with the wrapped
entry-document error. -/
theorem claim_C2 (w : World) (cfg : FtpConfig) (buildDir : String)
    (excl : List String) (items : List RemoteItem) (e : FtpError)
    (hb : w.buildDirExists = true) (hc : w.connectResult = Except.ok ())
    (he : w.ensureRootResult = Except.ok ())
    (hl : w.listResult = Except.ok items)
    (hidx : "index.html" ∈ getAllFiles excl w.tree)
    (hfail : (uploadWithRetry (w.env.uploadOutcome "index.html") cfg
      (posixJoin buildDir "index.html")
      (posixJoin cfg.remoteDir (slashify "index.html")) 3).2 =
      Except.error e) :
    (run w cfg buildDir excl).2 = RunResult.failed
      ("Deployment failed: Failed to upload index.html: " ++ e.message) := by
  have hrun := run_phases_ok w cfg buildDir excl items hb hc he hl
  rw [hrun]
  have hu2 : (uploadFiles w.env cfg w.tree buildDir cfg.remoteDir true
      excl).2 = some "index.html" := by
    rw [uploadFiles_eq]
    exact indexFileOf_of_mem hidx
  rw [hu2, uploadIndexFile_some_err w.env cfg buildDir cfg.remoteDir
    "index.html" e hfail]
  dsimp only
  rw [← String.append_assoc]
  rfl

/-- C8: a non-entry file's upload failure after retries leaves a warning
in the trace, does not abort the run (the run still reports plain
success when the entry-document phase succeeds), and every other
locally-present bulk file still gets its upload attempted. -/
theorem claim_C8 (w : World) (cfg : FtpConfig) (buildDir : String)
    (excl : List String) (items : List RemoteItem) (f : String)
    (e : FtpError)
    (hb : w.buildDirExists = true) (hc : w.connectResult = Except.ok ())
    (he : w.ensureRootResult = Except.ok ())
    (hl : w.listResult = Except.ok items)
    (hf : f ∈ filesToUploadOf true (getAllFiles excl w.tree))
    (hex : w.env.existsSync (posixJoin buildDir f) = true)
    (hfail : (uploadWithRetry (w.env.uploadOutcome f) cfg
      (posixJoin buildDir f) (posixJoin cfg.remoteDir (slashify f)) 3).2 =
      Except.error e)
    (hidxok : (uploadIndexFile w.env cfg buildDir cfg.remoteDir
      (uploadFiles w.env cfg w.tree buildDir cfg.remoteDir true
        excl).2).2 = Except.ok ()) :
    (run w cfg buildDir excl).2 = RunResult.success ∧
    Action.warn ("Failed to upload " ++ f ++ " after retries: " ++
      e.message) ∈ (run w cfg buildDir excl).1 ∧
    (∀ g, g ∈ filesToUploadOf true (getAllFiles excl w.tree) →
      w.env.existsSync (posixJoin buildDir g) = true →
      Action.uploadAttempt (posixJoin buildDir g)
        (posixJoin cfg.remoteDir (slashify g)) ∈
        (run w cfg buildDir excl).1) := by
  have hrun := run_phases_ok w cfg buildDir excl items hb hc he hl
  refine ⟨?_, ?_, ?_⟩
  · rw [hrun]
    simp only [hidxok]
  · rw [hrun]
    refine List.mem_append.mpr (Or.inl (List.mem_append.mpr (Or.inr ?_)))
    rw [uploadFiles_eq]
    refine List.mem_append.mpr (Or.inr ?_)
    exact uploadLoop_warn_fail w.env cfg buildDir cfg.remoteDir _ f e hf
      hex hfail
  · intro g hg hexg
    rw [hrun]
    refine List.mem_append.mpr (Or.inl (List.mem_append.mpr (Or.inr ?_)))
    rw [uploadFiles_eq]
    refine List.mem_append.mpr (Or.inr ?_)
    exact uploadLoop_attempt_mem w.env cfg buildDir cfg.remoteDir _ g hg
      hexg

/-- C9: only the exact root-level `index.html` is distinguished — the
found index is always literally `index.html`, it is found whenever
present, every other file (including a nested `index.html`) stays in the
bulk set and is uploaded in the bulk phase, and when no root-level
`index.html` exists the run succeeds with no entry-document upload. -/
theorem claim_C9 :
    (∀ (files : List String) (i : String),
       indexFileOf files = some i → i = "index.html") ∧
    (∀ files : List String, "index.html" ∈ files →
       indexFileOf files = some "index.html") ∧
    (∀ (files : List String) (f : String), f ∈ files →
       f ≠ "index.html" → f ∈ filesToUploadOf true files) ∧
    (∀ (env : UploadEnv) (cfg : FtpConfig) (tree : List FSTree)
       (buildDir remoteDir : String) (excl : List String) (f : String),
       f ∈ filesToUploadOf true (getAllFiles excl tree) →
       env.existsSync (posixJoin buildDir f) = true →
       Action.uploadAttempt (posixJoin buildDir f)
         (posixJoin remoteDir (slashify f)) ∈
         (uploadFiles env cfg tree buildDir remoteDir true excl).1) ∧
    (∀ (w : World) (cfg : FtpConfig) (buildDir : String)
       (excl : List String) (items : List RemoteItem),
       w.buildDirExists = true → w.connectResult = Except.ok () →
       w.ensureRootResult = Except.ok () →
       w.listResult = Except.ok items →
       "index.html" ∉ getAllFiles excl w.tree →
       (run w cfg buildDir excl).2 = RunResult.success ∧
       (uploadFiles w.env cfg w.tree buildDir cfg.remoteDir true
         excl).2 = none ∧
       uploadIndexFile w.env cfg buildDir cfg.remoteDir
         (uploadFiles w.env cfg w.tree buildDir cfg.remoteDir true
           excl).2 = ([], Except.ok ())) := by
  refine ⟨?_, ?_, ?_, ?_, ?_⟩
  · intro files i h
    exact indexFileOf_eq_index h
  · intro files h
    exact indexFileOf_of_mem h
  · intro files f hmem hne
    exact mem_filesToUpload_of hmem hne
  · intro env cfg tree buildDir remoteDir excl f hf hex
    rw [uploadFiles_eq]
    refine List.mem_append.mpr (Or.inr ?_)
    exact uploadLoop_attempt_mem env cfg buildDir remoteDir _ f hf hex
  · intro w cfg buildDir excl items hb hc he hl hno
    have hu2 : (uploadFiles w.env cfg w.tree buildDir cfg.remoteDir true
        excl).2 = none := by
      rw [uploadFiles_eq]
      exact indexFileOf_eq_none hno
    have hrun := run_phases_ok w cfg buildDir excl items hb hc he hl
    refine ⟨?_, hu2, ?_⟩
    · rw [hrun, hu2]
      rfl
    · rw [hu2]
      rfl

/-- C10: a bulk-phase file that is missing from the local filesystem at
upload time is skipped with a warning, no upload attempt for it ever
appears in the trace, and the run still succeeds. -/
theorem claim_C10 (w : World) (cfg : FtpConfig) (buildDir : String)
    (excl : List String) (items : List RemoteItem) (f : String)
    (hb : w.buildDirExists = true) (hc : w.connectResult = Except.ok ())
    (he : w.ensureRootResult = Except.ok ())
    (hl : w.listResult = Except.ok items)
    (hf : f ∈ filesToUploadOf true (getAllFiles excl w.tree))
    (hex : w.env.existsSync (posixJoin buildDir f) = false)
    (hidxok : (uploadIndexFile w.env cfg buildDir cfg.remoteDir
      (uploadFiles w.env cfg w.tree buildDir cfg.remoteDir true
        excl).2).2 = Except.ok ()) :
    Action.warn ("Local file does not exist: " ++ posixJoin buildDir f)
      ∈ (run w cfg buildDir excl).1 ∧
    (∀ rp, Action.uploadAttempt (posixJoin buildDir f) rp ∉
      (run w cfg buildDir excl).1) ∧
    (run w cfg buildDir excl).2 = RunResult.success := by
  have hrun := run_phases_ok w cfg buildDir excl items hb hc he hl
  refine ⟨?_, ?_, ?_⟩
  · rw [hrun]
    refine List.mem_append.mpr (Or.inl (List.mem_append.mpr (Or.inr ?_)))
    rw [uploadFiles_eq]
    refine List.mem_append.mpr (Or.inr ?_)
    exact uploadLoop_warn_skip w.env cfg buildDir cfg.remoteDir _ f hf hex
  · intro rp hmem
    rw [hrun] at hmem
    rcases List.mem_append.mp hmem with hmem | hmem
    · rcases List.mem_append.mp hmem with hmem | hmem
      · rcases List.mem_cons.mp hmem with h | hmem
        · cases h
        · rcases List.mem_cons.mp hmem with h | hmem
          · cases h
          · exact absurd hmem (cleanupLoop_no_upload w.deleteOutcome excl
              items _ rp)
      · rw [uploadFiles_eq] at hmem
        rcases List.mem_append.mp hmem with hmem | hmem
        · exact absurd hmem (dirActs_no_upload cfg.remoteDir _ _ rp)
        · rcases uploadLoop_uploads w.env cfg buildDir cfg.remoteDir _ _ rp
            hmem with ⟨g, hg, hlp, _, hexg⟩
          rw [posixJoin_right_inj buildDir hlp] at hex
          rw [hexg] at hex
          cases hex
    · cases hio : (uploadFiles w.env cfg w.tree buildDir cfg.remoteDir
        true excl).2 with
      | none =>
        rw [hio] at hmem
        simp [uploadIndexFile] at hmem
      | some i =>
        have hifi : indexFileOf (getAllFiles excl w.tree) = some i := by
          rw [uploadFiles_eq] at hio
          exact hio
        have hieq : i = "index.html" := indexFileOf_eq_index hifi
        have hidxmem : "index.html" ∈ getAllFiles excl w.tree := by
          have := List.mem_of_find?_eq_some hifi
          rwa [hieq] at this
        rw [hio, uploadIndexFile_some_trace] at hmem
        have hlp := (retryLoop_uploads (w.env.uploadOutcome i) cfg
          (posixJoin buildDir i) (posixJoin cfg.remoteDir (slashify i)) 3
          _ _ rp hmem).1
        have hfi : f = i := posixJoin_right_inj buildDir hlp
        rw [hieq] at hfi
        exact mem_filesToUpload_ne_index hidxmem hf hfi
  · rw [hrun]
    simp only [hidxok]

/-- The scan of the sample tree, evaluated. -/
theorem sampleTree_scan :
    getAllFiles [] sampleTree = ["a.txt", "sub/index.html", "index.html"] := by
  have h : sampleTree = [FSTree.file "a.txt",
      FSTree.dir "sub" [FSTree.file "index.html"],
      FSTree.file "index.html"] := rfl
  rw [getAllFiles, h]
  simp [scanAux, relJoin, shouldExclude]

/-- The sample scan transported to any definitionally equal tree. -/
theorem scan_of_sample {tree : List FSTree} (h : tree = sampleTree) :
    getAllFiles [] tree = ["a.txt", "sub/index.html", "index.html"] := by
  rw [h]
  exact sampleTree_scan

/-- C1 (witness): the ordering property at a concrete successful run. -/
theorem claim_C1_witness :
    ∃ pre post, (run sampleWorld sampleCfg "dist" []).1 = pre ++ post ∧
      (∀ lp rp, Action.uploadAttempt lp rp ∈ pre →
        lp ≠ posixJoin "dist" "index.html") ∧
      (∀ lp rp, Action.uploadAttempt lp rp ∈ post →
        lp = posixJoin "dist" "index.html") ∧
      (∃ rp, Action.uploadAttempt (posixJoin "dist" "index.html") rp
        ∈ post) :=
  claim_C1 sampleWorld sampleCfg "dist" []
    (by
      rw [run_phases_ok sampleWorld sampleCfg "dist" [] [] rfl rfl rfl rfl,
        uploadFiles_eq, scan_of_sample (rfl : sampleWorld.tree = sampleTree)]
      rfl)
    (by
      rw [scan_of_sample (rfl : sampleWorld.tree = sampleTree)]
      decide)

/-- C2 (witness): a run whose entry-document upload is denied fails with
the wrapped message. -/
theorem claim_C2_witness :
    (run failIdxWorld sampleCfg "dist" []).2 = RunResult.failed
      ("Deployment failed: Failed to upload index.html: " ++
        deniedErr.message) :=
  claim_C2 failIdxWorld sampleCfg "dist" [] [] deniedErr rfl rfl rfl rfl
    (by
      rw [scan_of_sample (rfl : failIdxWorld.tree = sampleTree)]
      decide)
    (by rfl)

/-- C8 (witness): a denied `a.txt` upload leaves a warning, the run still
succeeds, and present files are still attempted. -/
theorem claim_C8_witness :
    (run failATxtWorld sampleCfg "dist" []).2 = RunResult.success ∧
    Action.warn ("Failed to upload " ++ "a.txt" ++ " after retries: " ++
      deniedErr.message) ∈ (run failATxtWorld sampleCfg "dist" []).1 ∧
    (∀ g, g ∈ filesToUploadOf true (getAllFiles [] failATxtWorld.tree) →
      failATxtWorld.env.existsSync (posixJoin "dist" g) = true →
      Action.uploadAttempt (posixJoin "dist" g)
        (posixJoin sampleCfg.remoteDir (slashify g)) ∈
        (run failATxtWorld sampleCfg "dist" []).1) :=
  claim_C8 failATxtWorld sampleCfg "dist" [] [] "a.txt" deniedErr rfl rfl
    rfl rfl
    (by
      rw [scan_of_sample (rfl : failATxtWorld.tree = sampleTree)]
      decide)
    (by rfl)
    (by rfl)
    (by
      rw [uploadFiles_eq, scan_of_sample (rfl : failATxtWorld.tree = sampleTree)]
      rfl)

/-- C10 (witness): a vanished `a.txt` is skipped with a warning, never
uploaded, and the run still succeeds. -/
theorem claim_C10_witness :
    Action.warn ("Local file does not exist: " ++ posixJoin "dist" "a.txt")
      ∈ (run missingATxtWorld sampleCfg "dist" []).1 ∧
    (∀ rp, Action.uploadAttempt (posixJoin "dist" "a.txt") rp ∉
      (run missingATxtWorld sampleCfg "dist" []).1) ∧
    (run missingATxtWorld sampleCfg "dist" []).2 = RunResult.success :=
  claim_C10 missingATxtWorld sampleCfg "dist" [] [] "a.txt" rfl rfl rfl
    rfl
    (by
      rw [scan_of_sample (rfl : missingATxtWorld.tree = sampleTree)]
      decide)
    (by rfl)
    (by
      rw [uploadFiles_eq,
        scan_of_sample (rfl : missingATxtWorld.tree = sampleTree)]
      rfl)

end FtpDeploy
